import Mathlib

/-!
# Deadline and cancellation demos: a verification development

Two Go programs are embedded here.

* `context_WithDeadline.go` (namespace `WithDeadline`): `main` selects between a
  five second timer and a six second deadline; on the timer it calls `readfile`,
  which prints every line of `test.ini` but the first.
* `context_WithTimeout.go` (namespace `WithTimeout`): `main` starts `readfile`
  in a goroutine, sleeps, cancels the context and returns; `readfile` checks the
  context once, at entry.

Library calls are modelled by their observable behaviour:

* `os.Open` consults a `FileSystem`: a name either fails with an error or gives a
  handle whose scan yields a sequence of lines;
* `bufio.Scanner` is a state (pending tokens, current token); `Scan` moves one
  token from the pending ones to the current one and reports whether it could;
* `fmt.Println`, `log.Println`, `os.Open`, `Scan` and `Close` calls are recorded,
  in program order, in a list of `Event`s;
* a `context.Context` is its error field: `none` until the signal fires.
-/

namespace GoContext

/-! ## Errors and the cancellation signal -/

/-- Error values the two programs can meet: the two sentinel errors of package
`context`, and the `*fs.PathError` that `os.Open` returns. -/
inductive GoError where
  | Canceled
  | DeadlineExceeded
  | PathError (op path msg : String)
  deriving DecidableEq, Repr

/-- The `Error()` method: the text `fmt.Println(err)` and `log.Println(err)` write. -/
def GoError.Error : GoError → String
  | .Canceled => "context canceled"
  | .DeadlineExceeded => "context deadline exceeded"
  | .PathError op path msg => op ++ " " ++ path ++ ": " ++ msg

/-- What `fmt.Println(err)` writes for a possibly nil `error`. -/
def fmtError : Option GoError → String
  | some e => e.Error
  | none => "<nil>"

/-- A context, reduced to its one-shot signal: `err` is `none` (nil) until the
context is done, and then holds the cause. -/
structure Context where
  err : Option GoError
  deriving DecidableEq, Repr

/-- The result of `context.Background()`: never done. -/
def Context.Background : Context := ⟨none⟩

/-- The method `ctx.Err()`. -/
def Context.Err (ctx : Context) : Option GoError := ctx.err

/-- Firing the signal with a cause, as `cancelCtx.cancel` does: a context that is
already done keeps its first error. -/
def Context.cancelWith (ctx : Context) (cause : GoError) : Context :=
  match ctx.err with
  | some _ => ctx
  | none => ⟨some cause⟩

/-- The `cancel` function returned by `WithCancel` and `WithDeadline`. -/
def Context.cancel (ctx : Context) : Context := ctx.cancelWith .Canceled

/-- The deadline timer of `WithDeadline` going off. -/
def Context.deadlineFires (ctx : Context) : Context := ctx.cancelWith .DeadlineExceeded

/-! ## Files, scanners and recorded effects -/

/-- The file system seen by `os.Open`: for each name either the error of the
failed open, or the line sequence that scanning the opened file yields. -/
abbrev FileSystem := String → Except GoError (List String)

/-- A `*os.File`: `none` is the nil handle a failed `os.Open` returns, `some L`
an open file that scans to the lines `L`. -/
abbrev File := Option (List String)

/-- The call `os.Open(filename)`, with its two results `(file, err)`. -/
def osOpen (fs : FileSystem) (filename : String) : File × Option GoError :=
  match fs filename with
  | .ok L => (some L, none)
  | .error e => (none, some e)

/-- A `bufio.Scanner` with the default line splitter: the tokens it has yet to
deliver and the token of the last successful `Scan`. -/
structure Scanner where
  pending : List String
  text : String
  deriving DecidableEq, Repr

/-- The call `bufio.NewScanner(file)`. Reading from the nil handle fails (with
`os.ErrInvalid`), so a scanner over it never delivers a token. -/
def NewScanner (file : File) : Scanner :=
  match file with
  | some L => ⟨L, ""⟩
  | none => ⟨[], ""⟩

/-- The method `scanner.Scan()`: advance to the next token; `false` when there
is none (end of input or read error), and it stays `false` afterwards. -/
def Scanner.Scan (s : Scanner) : Bool × Scanner :=
  match s.pending with
  | [] => (false, ⟨[], ""⟩)
  | t :: rest => (true, ⟨rest, t⟩)

/-- The method `scanner.Text()`. -/
def Scanner.Text (s : Scanner) : String := s.text

/-- The observable actions of the programs, recorded in program order. -/
inductive Event where
  | osOpen (filename : String)
  | scan (ok : Bool)
  | println (line : String)
  | logPrintln (line : String)
  | close
  deriving DecidableEq, Repr

/-- The lines written to standard output (by `fmt.Println`) in a trace. -/
def stdout : List Event → List String
  | [] => []
  | .println line :: tr => line :: stdout tr
  | _ :: tr => stdout tr

/-- The names passed to `os.Open` in a trace. -/
def opened : List Event → List String
  | [] => []
  | .osOpen name :: tr => name :: opened tr
  | _ :: tr => opened tr

/-- The loop `for scanner.Scan() { fmt.Println(scanner.Text()) }`, shared by both
programs. Each round consumes one pending token, so the callers run it with
`scanner.pending.length + 1` rounds of fuel, which is never exhausted
(see `printLoop_fuel`). -/
def printLoop : Nat → Scanner → List Event → List Event
  | 0, _, tr => tr
  | fuel + 1, scanner, tr =>
    match scanner.Scan with
    | (true, scanner') =>
      printLoop fuel scanner' (tr ++ [Event.scan true, Event.println scanner'.Text])
    | (false, _) => tr ++ [Event.scan false]

/-- The events of the print loop over the tokens `L`: a successful scan and a
print for each one (the final failing scan is not included). -/
def loopEvents : List String → List Event
  | [] => []
  | t :: rest => Event.scan true :: Event.println t :: loopEvents rest

end GoContext

/-! ## Program A: `context_WithDeadline.go` -/

namespace WithDeadline

open GoContext

/-- The function `readfile(filename string)` of Program A. A failed open is
printed and execution goes on with the nil handle. -/
def readfile (fs : FileSystem) (filename : String) : List Event :=
  let (file, err) := osOpen fs filename
  let tr : List Event := [Event.osOpen filename]
  let tr := match err with
    | some e => tr ++ [Event.println e.Error]
    | none => tr
  let scanner := NewScanner file
  let (ok, scanner) := scanner.Scan
  let tr := tr ++ [Event.scan ok]
  let tr := printLoop (scanner.pending.length + 1) scanner tr
  tr ++ [Event.close]

/-- The two cases of the `select` statement in `main`. -/
inductive SelectCase where
  | timerFired
  | ctxDone
  deriving DecidableEq, Repr

/-- The constant `time.Second`, in nanoseconds. -/
def Second : Nat := 1000000000

/-- The blocking `select`: it takes the case whose channel is ready first; when
both become ready at the same instant the runtime picks one (`tie`). -/
def select (delay deadline : Nat) (tie : SelectCase) : SelectCase :=
  if delay < deadline then SelectCase.timerFired
  else if deadline < delay then SelectCase.ctxDone
  else tie

/-- The body of `main`, for a timer `time.After` that delivers `delay`
nanoseconds after the start and a context from `context.WithDeadline` whose
deadline is `deadline` nanoseconds after the start. In the `ctx.Done()` case the
context is done because its deadline fired. The result is the trace and the
context after the deferred `cancel()`. -/
def mainWith (delay deadline : Nat) (tie : SelectCase) (fs : FileSystem) :
    List Event × Context :=
  let ctx := Context.Background
  match select delay deadline tie with
  | SelectCase.timerFired =>
    let tr := readfile fs "test.ini"
    (tr, ctx.cancel)
  | SelectCase.ctxDone =>
    let ctx := ctx.deadlineFires
    let tr := [Event.println (fmtError ctx.Err)]
    (tr, ctx.cancel)

/-- The function `main` of Program A: a delay of `time.Second * 5` against a
deadline of `time.Second * 6`. -/
def main (tie : SelectCase) (fs : FileSystem) : List Event × Context :=
  mainWith (Second * 5) (Second * 6) tie fs

end WithDeadline

/-! ## Program B: `context_WithTimeout.go` -/

namespace WithTimeout

open GoContext

/-- The function `readfile(ctx, filename) error` of Program B, run without
interruption: the returned error and the trace. -/
def readfile (ctx : Context) (fs : FileSystem) (filename : String) :
    Option GoError × List Event :=
  if ctx.Err ≠ none then
    (ctx.Err, [])
  else
    let (file, err) := osOpen fs filename
    let tr : List Event := [Event.osOpen filename]
    match err with
    | some e => (some e, tr)
    | none =>
      let scanner := NewScanner file
      let (ok, scanner) := scanner.Scan
      let tr := tr ++ [Event.scan ok]
      let tr := printLoop (scanner.pending.length + 1) scanner tr
      (none, tr ++ [Event.close])

/-! ### Program B as interleaved steps

To speak about the signal firing while `readfile` runs, and about `main` racing
the goroutine, the same code is also given as a machine that executes one
statement at a time. -/

/-- Program points of `readfile(ctx, filename)` in Program B. -/
inductive Pc where
  /-- About to evaluate the condition `ctx.Err() != nil`. -/
  | check
  /-- About to execute `return ctx.Err()`. -/
  | returnErr
  /-- About to call `os.Open(filename)` and test its error. -/
  | openFile
  /-- About to execute the first, discarded `scanner.Scan()`. -/
  | skipFirst (scanner : Scanner)
  /-- About to evaluate the loop condition `scanner.Scan()`. -/
  | loop (scanner : Scanner)
  /-- About to execute the loop body `fmt.Println(scanner.Text())`. -/
  | body (scanner : Scanner)
  /-- About to run the deferred `file.Close()` and `return nil`. -/
  | closing
  /-- The call has returned `err`. -/
  | returned (err : Option GoError)
  deriving DecidableEq, Repr

/-- A call of `readfile` in progress: its program point and its trace so far. -/
structure Task where
  pc : Pc
  trace : List Event
  deriving DecidableEq, Repr

/-- A call of `readfile` at its entry. -/
def Task.start : Task := ⟨Pc.check, []⟩

/-- One statement of `readfile`, executed while the shared context is `ctx`. -/
def Task.step (fs : FileSystem) (filename : String) (ctx : Context) (t : Task) : Task :=
  match t.pc with
  | Pc.check =>
    if ctx.Err ≠ none then ⟨Pc.returnErr, t.trace⟩ else ⟨Pc.openFile, t.trace⟩
  | Pc.returnErr => ⟨Pc.returned ctx.Err, t.trace⟩
  | Pc.openFile =>
    match osOpen fs filename with
    | (_, some e) => ⟨Pc.returned (some e), t.trace ++ [Event.osOpen filename]⟩
    | (file, none) => ⟨Pc.skipFirst (NewScanner file), t.trace ++ [Event.osOpen filename]⟩
  | Pc.skipFirst scanner =>
    match scanner.Scan with
    | (ok, scanner') => ⟨Pc.loop scanner', t.trace ++ [Event.scan ok]⟩
  | Pc.loop scanner =>
    match scanner.Scan with
    | (true, scanner') => ⟨Pc.body scanner', t.trace ++ [Event.scan true]⟩
    | (false, _) => ⟨Pc.closing, t.trace ++ [Event.scan false]⟩
  | Pc.body scanner => ⟨Pc.loop scanner, t.trace ++ [Event.println scanner.Text]⟩
  | Pc.closing => ⟨Pc.returned none, t.trace ++ [Event.close]⟩
  | Pc.returned err => ⟨Pc.returned err, t.trace⟩

/-- A run of `readfile` against a changing signal: the `k`-th statement executes
while the shared context is the `k`-th entry of `signal`. -/
def Task.run (fs : FileSystem) (filename : String) : List Context → Task → Task
  | [], t => t
  | ctx :: signal, t => Task.run fs filename signal (Task.step fs filename ctx t)

/-- The goroutine started by `main`: the call `readfile(ctx, "./test.ini")`, then
`log.Println(err)` when it returned an error. Its trace continues the call. -/
structure Goroutine where
  call : Task
  finished : Bool
  deriving DecidableEq, Repr

/-- One step of the goroutine while the shared context is `ctx`. -/
def Goroutine.step (fs : FileSystem) (ctx : Context) (g : Goroutine) : Goroutine :=
  if g.finished then g
  else
    match g.call.pc with
    | Pc.returned (some e) =>
      ⟨⟨Pc.returned (some e), g.call.trace ++ [Event.logPrintln e.Error]⟩, true⟩
    | Pc.returned none => ⟨g.call, true⟩
    | _ => ⟨Task.step fs "./test.ini" ctx g.call, false⟩

/-- Program points of `main` in Program B. -/
inductive MainPc where
  /-- About to execute the `go` statement. -/
  | goStmt
  /-- About to execute `time.Sleep(time.Millisecond * 10)`. -/
  | sleep
  /-- About to execute `cancel()` under `if true`. -/
  | cancelCall
  /-- About to run the deferred `cancel()` and return. -/
  | deferredCancel
  /-- The function `main` has returned: the process is over. -/
  | exited
  deriving DecidableEq, Repr

/-- The process of Program B: the shared context, where `main` is, and the
goroutine once it is started. -/
structure Proc where
  ctx : Context
  mainPc : MainPc
  goroutine : Option Goroutine
  deriving DecidableEq, Repr

/-- The process after `ctx, cancel := context.WithCancel(context.Background())`
and `defer cancel()`. -/
def Proc.init : Proc := ⟨Context.Background, MainPc.goStmt, none⟩

/-- One statement of `main`. -/
def Proc.stepMain (p : Proc) : Proc :=
  match p.mainPc with
  | MainPc.goStmt => ⟨p.ctx, MainPc.sleep, some ⟨Task.start, false⟩⟩
  | MainPc.sleep => ⟨p.ctx, MainPc.cancelCall, p.goroutine⟩
  | MainPc.cancelCall => ⟨p.ctx.cancel, MainPc.deferredCancel, p.goroutine⟩
  | MainPc.deferredCancel => ⟨p.ctx.cancel, MainPc.exited, p.goroutine⟩
  | MainPc.exited => p

/-- One step of the goroutine, if it has been started. -/
def Proc.stepBackground (fs : FileSystem) (p : Proc) : Proc :=
  match p.goroutine with
  | none => p
  | some g => ⟨p.ctx, p.mainPc, some (g.step fs p.ctx)⟩

/-- The two threads of control of Program B. -/
inductive Thread where
  | main
  | background
  deriving DecidableEq, Repr

/-- One scheduling decision: the chosen thread executes one statement. Nothing
runs once `main` has returned. -/
def Proc.step (fs : FileSystem) (th : Thread) (p : Proc) : Proc :=
  if p.mainPc = MainPc.exited then p
  else
    match th with
    | Thread.main => p.stepMain
    | Thread.background => p.stepBackground fs

/-- The process after a schedule, a sequence of scheduling decisions. -/
def Proc.run (fs : FileSystem) : List Thread → Proc → Proc
  | [], p => p
  | th :: schedule, p => Proc.run fs schedule (Proc.step fs th p)

/-- The trace of the process: `main` itself prints nothing, so it is the trace
of the goroutine. -/
def Proc.trace (p : Proc) : List Event :=
  match p.goroutine with
  | none => []
  | some g => g.call.trace

/-- The state of the signal that goes with each program point of `main`: not
done up to the explicit `cancel()`, cancelled after it. -/
def MainPc.signal : MainPc → Context
  | MainPc.goStmt => Context.Background
  | MainPc.sleep => Context.Background
  | MainPc.cancelCall => Context.Background
  | MainPc.deferredCancel => ⟨some GoError.Canceled⟩
  | MainPc.exited => ⟨some GoError.Canceled⟩

/-- The program point of `main` after `n` of its statements, from `pc`. -/
def MainPc.advance : Nat → MainPc → MainPc
  | 0, pc => pc
  | n + 1, MainPc.goStmt => MainPc.advance n MainPc.sleep
  | n + 1, MainPc.sleep => MainPc.advance n MainPc.cancelCall
  | n + 1, MainPc.cancelCall => MainPc.advance n MainPc.deferredCancel
  | _ + 1, MainPc.deferredCancel => MainPc.exited
  | _ + 1, MainPc.exited => MainPc.exited

end WithTimeout

/-! ## Sample inputs -/

namespace GoContext

/-- A file system holding only `test.ini`, with the lines A, B and C. -/
def fsABC : FileSystem := fun name =>
  if name = "test.ini" ∨ name = "./test.ini" then .ok ["A", "B", "C"]
  else .error (GoError.PathError "open" name "no such file or directory")

end GoContext

/-! ## Shared lemmas -/

namespace GoContext

theorem opened_append (a b : List Event) : opened (a ++ b) = opened a ++ opened b := by
  induction a with
  | nil => rfl
  | cons e a ih => cases e <;> simp [opened, ih]

theorem opened_loopEvents (L : List String) : opened (loopEvents L) = [] := by
  induction L with
  | nil => rfl
  | cons t rest ih => simp [loopEvents, opened, ih]

/-- With more fuel than pending tokens the print loop runs to its end: it
records a scan and a print for each pending token, then the failing scan. -/
theorem printLoop_fuel (fuel : Nat) (pending : List String) (text : String) (tr : List Event)
    (h : pending.length < fuel) :
    printLoop fuel ⟨pending, text⟩ tr = tr ++ loopEvents pending ++ [Event.scan false] := by
  induction pending generalizing fuel text tr with
  | nil =>
    cases fuel with
    | zero => simp at h
    | succ n => simp [printLoop, Scanner.Scan, loopEvents]
  | cons t rest ih =>
    cases fuel with
    | zero => simp at h
    | succ n =>
      have hn : rest.length < n := by simpa using h
      simp [printLoop, Scanner.Scan, Scanner.Text, loopEvents, ih n t _ hn]

/-- The first `Scan` of a fresh scanner over an open file leaves all lines but
the first pending. -/
theorem scan_newScanner_pending (L : List String) :
    (NewScanner (some L)).Scan.2.pending = L.drop 1 := by
  cases L <;> simp [NewScanner, Scanner.Scan]

/-- The first `Scan` of a fresh scanner succeeds exactly on a non-empty file. -/
theorem scan_newScanner_ok (L : List String) :
    (NewScanner (some L)).Scan.1 = !L.isEmpty := by
  cases L <;> simp [NewScanner, Scanner.Scan]

end GoContext

/-! ## Program A: theorems -/

namespace WithDeadline

open GoContext

/-- C6: when the open fails with `e`, Program A's `readfile` prints `e`, does not
return, runs both `Scan` calls on the nil handle (each fails) and closes; the
error line is the only output. -/
theorem readfile_open_error_continues (fs : FileSystem) (filename : String) (e : GoError)
    (h : fs filename = .error e) :
    readfile fs filename =
        [Event.osOpen filename, Event.println e.Error, Event.scan false, Event.scan false,
          Event.close] ∧
      stdout (readfile fs filename) = [e.Error] := by
  have key : readfile fs filename =
      [Event.osOpen filename, Event.println e.Error, Event.scan false, Event.scan false,
        Event.close] := by
    simp [readfile, osOpen, h, NewScanner, Scanner.Scan, printLoop]
  rw [key]
  exact ⟨rfl, rfl⟩

/-- C6 at a file that does not exist. -/
theorem readfile_open_error_continues_witness :
    fsABC "nofile" = .error (GoError.PathError "open" "nofile" "no such file or directory") ∧
      stdout (readfile fsABC "nofile") = ["open nofile: no such file or directory"] :=
  ⟨rfl, (readfile_open_error_continues fsABC "nofile"
    (GoError.PathError "open" "nofile" "no such file or directory") rfl).2⟩

end WithDeadline

/-! ## Program B: theorems on `readfile` run without interruption -/

namespace WithTimeout

open GoContext

/-- The whole result of Program B's `readfile` when the check passes and the
file opens and scans to `L`. -/
theorem readfile_timeout_trace (ctx : Context) (fs : FileSystem) (filename : String)
    (L : List String) (hc : ctx.Err = none) (h : fs filename = .ok L) :
    readfile ctx fs filename =
      (none, [Event.osOpen filename, Event.scan (!L.isEmpty)] ++ loopEvents (L.drop 1) ++
        [Event.scan false, Event.close]) := by
  cases L with
  | nil => simp [readfile, hc, osOpen, h, NewScanner, Scanner.Scan, printLoop_fuel, loopEvents]
  | cons t rest =>
    simp [readfile, hc, osOpen, h, NewScanner, Scanner.Scan, printLoop_fuel]

/-- C2: when the signal has already fired at the initial check, Program B's
`readfile` returns the signal's error at once, with an empty trace: nothing is
printed and the file is not opened. -/
theorem readfile_cancelled_at_entry (ctx : Context) (fs : FileSystem) (filename : String)
    (h : ctx.Err ≠ none) :
    readfile ctx fs filename = (ctx.Err, []) ∧
      stdout (readfile ctx fs filename).2 = [] ∧
      opened (readfile ctx fs filename).2 = [] := by
  have key : readfile ctx fs filename = (ctx.Err, []) := by simp [readfile, h]
  rw [key]
  exact ⟨rfl, rfl, rfl⟩

/-- C2 at the cancelled context of `main`: the result is `context.Canceled`. -/
theorem readfile_cancelled_at_entry_witness :
    Context.Background.cancel.Err ≠ none ∧
      readfile Context.Background.cancel fsABC "./test.ini" = (some GoError.Canceled, []) :=
  have h : Context.Background.cancel.Err ≠ none := by decide
  ⟨h, (readfile_cancelled_at_entry Context.Background.cancel fsABC "./test.ini" h).1⟩

/-- C7: Program B's `readfile` has exactly three outcomes, decided by the signal
at the check and by the open: the signal's error with an empty trace; the open
error itself, with only the open in the trace (no line printed); or no error.
In particular a failed open under a signal that has not fired returns the open
error and prints nothing. -/
theorem readfile_three_outcomes (ctx : Context) (fs : FileSystem) (filename : String) :
    ((ctx.Err ≠ none ∧ readfile ctx fs filename = (ctx.Err, [])) ∨
      (ctx.Err = none ∧ ∃ e, fs filename = .error e ∧
        readfile ctx fs filename = (some e, [Event.osOpen filename])) ∨
      (ctx.Err = none ∧ ∃ L, fs filename = .ok L ∧ (readfile ctx fs filename).1 = none)) ∧
    ∀ e, ctx.Err = none → fs filename = .error e →
      (readfile ctx fs filename).1 = some e ∧ stdout (readfile ctx fs filename).2 = [] := by
  have herr : ∀ e, ctx.Err = none → fs filename = .error e →
      readfile ctx fs filename = (some e, [Event.osOpen filename]) := by
    intro e hc h
    simp [readfile, hc, osOpen, h]
  constructor
  · by_cases hc : ctx.Err = none
    · right
      cases h : fs filename with
      | error e => exact Or.inl ⟨hc, e, rfl, herr e hc h⟩
      | ok L =>
        right
        refine ⟨hc, L, rfl, ?_⟩
        rw [readfile_timeout_trace ctx fs filename L hc h]
    · left
      refine ⟨hc, ?_⟩
      simp [readfile, hc]
  · intro e hc h
    rw [herr e hc h]
    exact ⟨rfl, rfl⟩

/-- C7 at a file that does not exist, under a context that is not done. -/
theorem readfile_three_outcomes_witness :
    Context.Background.Err = none ∧
      (readfile Context.Background fsABC "nofile").1 =
        some (GoError.PathError "open" "nofile" "no such file or directory") ∧
      stdout (readfile Context.Background fsABC "nofile").2 = [] :=
  ⟨rfl, (readfile_three_outcomes Context.Background fsABC "nofile").2
    (GoError.PathError "open" "nofile" "no such file or directory") rfl rfl⟩

end WithTimeout

/-! ## Program B: the signal during the run, and the race with `main` -/

namespace WithTimeout

open GoContext

end WithTimeout

/-! ## Program B: `main` against the goroutine -/

namespace WithTimeout

open GoContext

theorem mainPc_advance_exited (n : Nat) : MainPc.advance n MainPc.exited = MainPc.exited := by
  cases n <;> rfl

theorem mainPc_advance_succ (n : Nat) (pc : MainPc) :
    MainPc.advance (n + 1) pc = MainPc.advance n (MainPc.advance 1 pc) := by
  cases pc <;> simp [MainPc.advance, mainPc_advance_exited]

theorem proc_step_main_mainPc (fs : FileSystem) (p : Proc) :
    (Proc.step fs Thread.main p).mainPc = MainPc.advance 1 p.mainPc := by
  obtain ⟨ctx, pc, g⟩ := p
  cases pc <;> simp [Proc.step, Proc.stepMain, MainPc.advance]

theorem proc_step_background_mainPc (fs : FileSystem) (p : Proc) :
    (Proc.step fs Thread.background p).mainPc = p.mainPc := by
  obtain ⟨ctx, pc, g⟩ := p
  cases g <;> simp only [Proc.step, Proc.stepBackground] <;> split <;> rfl

theorem proc_step_background_ctx (fs : FileSystem) (p : Proc) :
    (Proc.step fs Thread.background p).ctx = p.ctx := by
  obtain ⟨ctx, pc, g⟩ := p
  cases g <;> simp only [Proc.step, Proc.stepBackground] <;> split <;> rfl

/-- The progress of `main` depends only on how often `main` is scheduled: the
goroutine never holds it back. -/
theorem proc_run_mainPc (fs : FileSystem) (schedule : List Thread) (p : Proc) :
    (Proc.run fs schedule p).mainPc =
      MainPc.advance (schedule.count Thread.main) p.mainPc := by
  induction schedule generalizing p with
  | nil => rfl
  | cons th ths ih =>
    cases th with
    | main =>
      simp only [Proc.run, List.count_cons_self]
      rw [mainPc_advance_succ, ih, proc_step_main_mainPc]
    | background =>
      have hc : (Thread.background :: ths).count Thread.main = ths.count Thread.main := by
        simp [List.count_cons]
      simp only [Proc.run]
      rw [ih, proc_step_background_mainPc, hc]

theorem mainPc_advance_four (n : Nat) (h : 4 ≤ n) :
    MainPc.advance n MainPc.goStmt = MainPc.exited := by
  obtain ⟨k, rfl⟩ : ∃ k, n = k + 4 := ⟨n - 4, by omega⟩
  rfl

/-- In every step the signal is the one that goes with the program point of `main`. -/
theorem proc_step_signal (fs : FileSystem) (th : Thread) (p : Proc)
    (h : p.ctx = p.mainPc.signal) :
    (Proc.step fs th p).ctx = (Proc.step fs th p).mainPc.signal := by
  cases th with
  | background => rw [proc_step_background_ctx, proc_step_background_mainPc, h]
  | main =>
    obtain ⟨ctx, pc, g⟩ := p
    simp only at h
    subst h
    cases pc <;> rfl

theorem proc_run_signal (fs : FileSystem) (schedule : List Thread) (p : Proc)
    (h : p.ctx = p.mainPc.signal) :
    (Proc.run fs schedule p).ctx = (Proc.run fs schedule p).mainPc.signal := by
  induction schedule generalizing p with
  | nil => exact h
  | cons th ths ih => exact ih _ (proc_step_signal fs th p h)

/-- C10: `main` fires the cancellation unconditionally. After any schedule,
whatever the goroutine did: once `main` has returned the signal has fired with
`context.Canceled`; at the deferred `cancel()` it has already fired so, and that
second trigger leaves the signal unchanged; triggering twice is the same as
triggering once on every context; and four steps of `main` make it return. -/
theorem main_cancels_unconditionally (fs : FileSystem) (schedule : List Thread) :
    ((Proc.run fs schedule Proc.init).mainPc = MainPc.exited →
        (Proc.run fs schedule Proc.init).ctx.Err = some GoError.Canceled) ∧
      ((Proc.run fs schedule Proc.init).mainPc = MainPc.deferredCancel →
        (Proc.run fs schedule Proc.init).ctx.Err = some GoError.Canceled ∧
        (Proc.step fs Thread.main (Proc.run fs schedule Proc.init)).ctx =
          (Proc.run fs schedule Proc.init).ctx ∧
        (Proc.step fs Thread.main (Proc.run fs schedule Proc.init)).mainPc = MainPc.exited) ∧
      (∀ ctx : Context, ctx.cancel.cancel = ctx.cancel) ∧
      (4 ≤ schedule.count Thread.main →
        (Proc.run fs schedule Proc.init).mainPc = MainPc.exited) := by
  have hsig := proc_run_signal fs schedule Proc.init rfl
  refine ⟨?_, ?_, ?_, ?_⟩
  · intro hpc
    rw [hsig, hpc]
    rfl
  · intro hpc
    have hstep := proc_step_signal fs Thread.main _ hsig
    have hnext := proc_step_main_mainPc fs (Proc.run fs schedule Proc.init)
    rw [hpc] at hnext
    rw [hstep, hnext, hsig, hpc]
    exact ⟨rfl, rfl, rfl⟩
  · intro ctx
    obtain ⟨err⟩ := ctx
    cases err <;> rfl
  · intro hcount
    rw [proc_run_mainPc]
    exact mainPc_advance_four _ hcount

/-- C10 on two schedules: one stopped at the deferred `cancel()`, one in which
the goroutine never ran before `main` returned. -/
theorem main_cancels_unconditionally_witness :
    (Proc.run fsABC [Thread.main, Thread.main, Thread.main, Thread.main] Proc.init).ctx.Err =
        some GoError.Canceled ∧
      (Proc.step fsABC Thread.main
          (Proc.run fsABC [Thread.main, Thread.background, Thread.main, Thread.main]
            Proc.init)).ctx =
        (Proc.run fsABC [Thread.main, Thread.background, Thread.main, Thread.main]
          Proc.init).ctx :=
  ⟨(main_cancels_unconditionally fsABC [Thread.main, Thread.main, Thread.main, Thread.main]).1
      rfl,
    ((main_cancels_unconditionally fsABC
      [Thread.main, Thread.background, Thread.main, Thread.main]).2.1 rfl).2.1⟩

end WithTimeout
